import Mathlib

/-
  Verification development for the Research Orchestration Engine
  (research-agent): a shallow embedding of the four-phase research
  pipeline, its state object, tool wrappers and orchestrator, with
  theorems settling the specification claims.

  Modelling conventions:
  * Asynchronous leaf calls (LLM completions, web search, page fetch) are
    oracles supplied in an `Env` record; a call that can reject is an
    oracle returning `Except String _` and `Promise.all` over such calls
    is `List.mapM` in the `Except` monad (one rejection rejects the join,
    exactly as in JS).
  * A `try { ... } catch` that converts an exception into an envelope or
    a default value is an explicit `match` on the `Except`.
  * `crypto.randomUUID()` is determinised as an id supply `uuid : Nat →
    String` indexed by the position of the allocation in its batch, and
    `new Date()` as the constant timestamp `0`; no claim concerns the
    values of `id` or `timestamp`.
  * The session recorder (`persistState` / `persistPrompt` /
    `persistResponse` in sessionStorage.ts) catches every error
    internally and only logs it, so it never influences data flow; it is
    omitted from the embedding.
  * LLM calls whose prompt is a fixed template of some inputs are keyed
    by those inputs (the composition of the template with a prompt-keyed
    oracle); the relevance prompt, which claim C6 is about, is embedded
    verbatim as `buildContentRelevancePrompt` and its oracle is keyed by
    the full prompt string.
  * JS strings are Lean `String`s, `.length`/`substring` counted in
    characters; JS `Math.floor(a / b)` on naturals is `Nat` division.
  * JS `trim()` and `startsWith()` are modelled by the structurally
    recursive `jsTrim` and `jsStartsWith` over the string's character
    list (Lean's own `String.trim`/`String.startsWith` are defined by
    well-founded recursion, which the kernel cannot evaluate on concrete
    inputs); they implement the same whitespace-stripping and prefix
    semantics.
-/

namespace ResearchAgent

/-- types.ts: `ResearchPhase`. -/
inductive ResearchPhase where
  | searching
  | planning
  | investigating
  | synthesizing
deriving DecidableEq, Repr

/-- google-scraper/schemas.ts: `SearchResult` — `{title, url, snippet, position}`. -/
structure SearchResult where
  title : String
  url : String
  snippet : String
  position : Nat
deriving DecidableEq, Repr

/-- types.ts: `Finding` — `{id, content, source, timestamp}`. -/
structure Finding where
  id : String
  content : String
  source : String
  timestamp : Nat
deriving DecidableEq, Repr

/-- types.ts: `WebContent`. -/
structure WebContent where
  content : String
  title : String
  author : Option String
  publishDate : Option Nat
  wordCount : Nat
  sourceUrl : String
deriving DecidableEq, Repr

/-- types.ts: `InvestigationStrategy`. -/
structure InvestigationStrategy where
  question : String
  approach : String
  expectedSources : List String
deriving DecidableEq, Repr

/-- types.ts: `ResearchPlan`. -/
structure ResearchPlan where
  researchQuestions : List String
  investigationStrategies : List InvestigationStrategy
  synthesisStrategy : String
deriving DecidableEq, Repr

/-- types.ts: `ResearchSynthesis` — the structured object expected from
the synthesis LLM call. -/
structure ResearchSynthesis where
  summary : String
  content : String
  keyInsights : List String
  conclusions : List String
deriving DecidableEq, Repr

/-- types.ts: `ResearchReport.metadata`. -/
structure ReportMetadata where
  findingsCount : Nat
  sourcesConsulted : Nat
deriving DecidableEq, Repr

/-- types.ts: `ResearchReport`. -/
structure ResearchReport where
  query : String
  executiveSummary : String
  detailedFindings : String
  sources : List String
  metadata : ReportMetadata
deriving DecidableEq, Repr

/-- types.ts: `ResearchState` (the later revision, which also stores the
`sessionId` generated at creation). Optional fields are `Option`. -/
structure ResearchState where
  sessionId : String
  query : String
  currentPhase : ResearchPhase
  searchResults : List SearchResult
  webContents : List WebContent
  findings : List Finding
  researchPlan : Option ResearchPlan
  followUpQueries : List String
  report : Option ResearchReport
deriving DecidableEq, Repr

/-- types.ts: `ToolResponse<T>` — the loosely-typed success/failure
envelope `{success: true, data} | {success: false, error}`. -/
inductive ToolResponse (α : Type) where
  | success (data : α)
  | failure (error : String)
deriving DecidableEq, Repr

/-- The `response.success` flag of a `ToolResponse`. -/
def ToolResponse.isSuccess : ToolResponse α → Bool
  | .success _ => true
  | .failure _ => false

/-- The `response.success ? response.data : d` idiom of a `ToolResponse`. -/
def ToolResponse.dataD : ToolResponse α → α → α
  | .success data, _ => data
  | .failure _, d => d

/-! ## State management (state.ts, later revision)

Each function also fires `void persistResearchState(state)`, whose
failures are caught and logged inside it; being effect-free on the state
it is omitted. `generateTimeUuid()` is determinised by passing the
generated `sessionId` as a parameter. -/

/-- state.ts `initializeResearch`: fresh state with empty collections and
phase `searching`. -/
def initializeResearch (sessionId query : String) : ResearchState :=
  { sessionId := sessionId
    query := query
    currentPhase := .searching
    searchResults := []
    webContents := []
    findings := []
    researchPlan := none
    followUpQueries := []
    report := none }

/-- state.ts `updatePhase`. -/
def updatePhase (state : ResearchState) (phase : ResearchPhase) : ResearchState :=
  { state with currentPhase := phase }

/-- state.ts `addSearchResults` (`state.searchResults.push(...results)`). -/
def addSearchResults (state : ResearchState) (results : List SearchResult) : ResearchState :=
  { state with searchResults := state.searchResults ++ results }

/-- state.ts `addWebContents`. -/
def addWebContents (state : ResearchState) (contents : List WebContent) : ResearchState :=
  { state with webContents := state.webContents ++ contents }

/-- state.ts `addFindings`. -/
def addFindings (state : ResearchState) (findings : List Finding) : ResearchState :=
  { state with findings := state.findings ++ findings }

/-- state.ts `setResearchPlan`. -/
def setResearchPlan (state : ResearchState) (plan : ResearchPlan) : ResearchState :=
  { state with researchPlan := some plan }

/-- state.ts `setReport`. -/
def setReport (state : ResearchState) (report : ResearchReport) : ResearchState :=
  { state with report := some report }

/-- state.ts `addFollowUpQueries`. -/
def addFollowUpQueries (state : ResearchState) (queries : List String) : ResearchState :=
  { state with followUpQueries := state.followUpQueries ++ queries }

/-! ## Tool wrappers (tools.ts) -/

/-- tools.ts `executeGoogleSearch`: the whole body (zod validation plus
`searchGoogle`) sits inside `try/catch`, so every thrown error becomes a
`failure` envelope. The underlying client is the oracle
`searchGoogle : query → maxResults → startIndex → Except String _`. -/
def executeGoogleSearch (searchGoogle : String → Nat → Nat → Except String (List SearchResult))
    (query : String) (maxResults startIndex : Nat) : ToolResponse (List SearchResult) :=
  match searchGoogle query maxResults startIndex with
  | .ok results => .success results
  | .error e => .failure e

/-- Outcome of the raw HTTP interaction inside tools.ts
`executeWebFetch`: the `fetch()` call (or the zod URL validation) can
throw, the response can be non-2xx, or a body is obtained (already
normalised by the external HTML-to-markdown conversion). -/
inductive FetchOutcome where
  | throws (message : String)
  | httpError (status : Nat)
  | body (text : String)
deriving DecidableEq, Repr

/-- tools.ts `executeWebFetch`: unlike `executeGoogleSearch`, there is
no `try/catch`, so a thrown network error propagates to the caller
(`Except.error`); a non-2xx status is converted to a `failure` envelope;
a body is truncated via `substring(start_index)` /
`substring(0, max_length)` and returned as `success`. -/
def executeWebFetch (fetch : String → FetchOutcome)
    (url : String) (maxLength startIndex : Nat) : Except String (ToolResponse String) :=
  match fetch url with
  | .throws message => .error message
  | .httpError status =>
      .ok (.failure ("Failed to fetch URL: " ++ toString status ++ " " ++ url))
  | .body text =>
      let content := if startIndex > 0 then text.drop startIndex else text
      let content := if content.length > maxLength then content.take maxLength else content
      .ok (.success content)

/-- The `responses.filter(r => r.success).flatMap(r => r.success ?
r.data : [])` idiom used by initialSearch.ts and fanout.ts to flatten
successful search responses. -/
def successfulSearchData (responses : List (ToolResponse (List SearchResult))) : List SearchResult :=
  (responses.filter (fun r => r.isSuccess)).flatMap (fun r => r.dataD [])

/-! ## Prompts (prompts.ts) — only the builders a claim inspects -/

/-- prompts.ts `buildContentRelevancePrompt`: embeds the original query,
the research question, the search query and the content (the source's
spelling, including the `artictles` typo, is preserved). -/
def buildContentRelevancePrompt (state : ResearchState)
    (researchQuestion searchQuery content : String) : String :=
  "Determine if this content is strictly relevant to provide an answer to the research inquiry.\n\n<original_query>\n"
    ++ state.query
    ++ "\n</original_query>\n\n<research_question>\n"
    ++ researchQuestion
    ++ "\n</research_question>\n\n<search_query>\n"
    ++ searchQuery
    ++ "\n</search_query>\n\n<content>\n"
    ++ content
    ++ "\n</content>\n\nReturn true only if the content contains information that could help answer the research question or original query. Be strict - marketing content, irrelevant articles, artictles about a different but similar topic, or tangential information should be marked as false."

/-- prompts.ts `buildContentExtractionPrompt`. -/
def buildContentExtractionPrompt (content : String) : String :=
  "Extract the main content body from this page, removing any navigation, headers, footers, sidebars, advertisements, or other page decorations. Keep all substantive content intact - do not summarize or shorten it. Return the complete main article/page content in its entirety.\n\n<content>\n"
    ++ content
    ++ "\n</content>\n\nReturn only the main content body, preserving all substantial information and details."

/-- JS `String.prototype.trim`: drop whitespace from both ends
(structurally recursive over the character list). -/
def jsTrim (s : String) : String :=
  String.mk (((s.data.dropWhile Char.isWhitespace).reverse.dropWhile
    Char.isWhitespace).reverse)

/-- JS `String.prototype.startsWith`. -/
def jsStartsWith (s pre : String) : Bool :=
  pre.data.isPrefixOf s.data

/-- prompts.ts `joinFindings`: `findings.map(f => f.content).join(newline)`. -/
def joinFindings (findings : List Finding) : String :=
  String.intercalate "\n" (findings.map (fun f => f.content))

/-- The structured relevance judgment (fanout.ts `relevanceSchema`). -/
structure RelevanceResult where
  relevant : Bool
  reason : Option String
deriving DecidableEq, Repr

/-! ## The oracle environment

One record holds every external effect the pipeline performs. Each LLM
oracle stands for one `generateText` / `generateObject` call site
together with the `JSON.parse` of its text where the site parses
(a parse failure is a rejection of the oracle, which propagates exactly
like a thrown call). Oracles whose prompt is a fixed template are keyed
by the template's dynamic inputs; the relevance oracle is keyed by the
verbatim prompt. -/
structure Env where
  /-- initialSearch.ts `generateInitialSearchQueries`: keyed by
  `state.query` (the only dynamic datum of its prompt); result of
  `JSON.parse(text).queries`. -/
  llmInitialQueries : String → Except String (List String)
  /-- planning.ts `identifyResearchGaps` raw text: keyed by
  `state.query` and the newline-joined findings text. -/
  llmKnowledgeGaps : String → String → Except String String
  /-- planning.ts `generateResearchPlan`: keyed by query, findings text
  and newline-joined gaps; result of `JSON.parse`. -/
  llmResearchPlan : String → String → String → Except String ResearchPlan
  /-- fanout.ts `generateSpecializedQueries`: keyed by the strategy;
  result of `JSON.parse(text).queries`. -/
  llmSpecializedQueries : InvestigationStrategy → Except String (List String)
  /-- fanout.ts `checkContentRelevance` `generateObject` call: keyed by
  the verbatim prompt built by `buildContentRelevancePrompt`. -/
  llmRelevance : String → Except String RelevanceResult
  /-- fanout.ts `extractInsightsFromContent` `generateText` call: keyed
  by the verbatim prompt built by `buildContentExtractionPrompt`. -/
  llmExtract : String → Except String String
  /-- synthesis.ts `generateResearchSynthesis`: keyed by query, the
  separator-joined findings contents and the plan's synthesis strategy;
  result of `JSON.parse`. -/
  llmSynthesis : String → String → String → Except String ResearchSynthesis
  /-- google-scraper `searchGoogle(query, {maxResults, startIndex})`. -/
  searchGoogle : String → Nat → Nat → Except String (List SearchResult)
  /-- The raw HTTP fetch inside `executeWebFetch`. -/
  fetch : String → FetchOutcome
  /-- `crypto.randomUUID()`, determinised by allocation index. -/
  uuid : Nat → String

/-! ## Phase 1 — Initial Search (initialSearch.ts) -/

/-- initialSearch.ts return shape `InitialSearchResult`. -/
structure InitialSearchResult where
  findings : List Finding
  sources : List SearchResult
deriving DecidableEq, Repr

/-- initialSearch.ts `extractInitialFindings`: one finding per search
result, `content` from the snippet, `source` from the URL. -/
def extractInitialFindings (uuid : Nat → String) (results : List SearchResult) : List Finding :=
  results.enum.map (fun p =>
    { id := uuid p.1
      content := p.2.snippet
      source := p.2.url
      timestamp := 0 })

/-- initialSearch.ts `executeInitialSearch`. A phase returns the state
as mutated so far together with the result or the propagated exception,
which models `async` state mutation plus `throw`. -/
def executeInitialSearch (env : Env) (state : ResearchState) :
    ResearchState × Except String InitialSearchResult :=
  match env.llmInitialQueries state.query with
  | .error e => (state, .error e)
  | .ok searchQueries =>
      let searchResponses := searchQueries.map
        (fun q => executeGoogleSearch env.searchGoogle q 8 1)
      let allSearchResults := successfulSearchData searchResponses
      let initialFindings := extractInitialFindings env.uuid allSearchResults
      let state := addSearchResults state allSearchResults
      let state := addFindings state initialFindings
      let state := updatePhase state .searching
      (state, .ok { findings := initialFindings, sources := allSearchResults })

/-! ## Phase 2 — Strategic Planning (planning.ts) -/

/-- planning.ts `identifyResearchGaps`: the LLM text, split on newlines
with blank lines discarded. -/
def identifyResearchGaps (env : Env) (state : ResearchState) : Except String (List String) :=
  match env.llmKnowledgeGaps state.query (joinFindings state.findings) with
  | .error e => .error e
  | .ok text => .ok ((text.splitOn "\n").filter (fun gap => (jsTrim gap).length > 0))

/-- planning.ts `executeStrategicPlanning`: two sequential LLM calls,
then `setResearchPlan` and `updatePhase('planning')`. -/
def executeStrategicPlanning (env : Env) (state : ResearchState) :
    ResearchState × Except String ResearchPlan :=
  match identifyResearchGaps env state with
  | .error e => (state, .error e)
  | .ok knowledgeGaps =>
      match env.llmResearchPlan state.query (joinFindings state.findings)
          (String.intercalate "\n" knowledgeGaps) with
      | .error e => (state, .error e)
      | .ok plan =>
          let state := setResearchPlan state plan
          let state := updatePhase state .planning
          (state, .ok plan)

/-! ## Phase 3 — Fan-Out Investigation (fanout.ts, the later revision
with the relevance gate). The body of `executeInvestigationStrategy` is
transcribed in contiguous chunks, each a named definition, so that the
theorems can speak about the intermediate lists. -/

/-- fanout.ts `checkContentRelevance`: builds the relevance prompt from
the state and the `{content, researchQuestion, searchQuery}` params and
asks for a structured `{relevant, reason}` object; there is no
`try/catch`, so a rejection propagates. -/
def checkContentRelevance (env : Env) (state : ResearchState)
    (content researchQuestion searchQuery : String) : Except String RelevanceResult :=
  env.llmRelevance (buildContentRelevancePrompt state researchQuestion searchQuery content)

/-- The element shape of fanout.ts `contentsWithUrls`
(`{content, url, success}`). -/
structure ContentWithUrl where
  content : String
  url : String
  success : Bool
deriving DecidableEq, Repr

/-- fanout.ts lines 268-279: pair each fetch response with
`topResults[index]?.url` (empty string when absent), then keep items
that are successful, longer than 100 characters, and have a nonempty
URL. -/
def fetchedItems (topResults : List SearchResult)
    (contentResponses : List (ToolResponse String)) : List ContentWithUrl :=
  (contentResponses.enum.map (fun p =>
    { content := p.2.dataD ""
      url := ((topResults.get? p.1).map (fun item => item.url)).getD ""
      success := p.2.isSuccess }))
    |>.filter (fun item => item.success && item.content.length > 100 && item.url != "")

/-- JS `a || b` on a possibly-undefined string `a`: the fallback fires
when `a` is `undefined` or the empty string (falsy). -/
def jsOrString (a : Option String) (b : String) : String :=
  match a with
  | some s => if s = "" then b else s
  | none => b

/-- fanout.ts lines 287-288: the search query supplied to the relevance
judgment for the content at `index` —
`queries[Math.floor(index * queries.length / contents.length)] ||
queries[0] || ''`. -/
def relevanceQueryAt (queries : List String) (numContents index : Nat) : String :=
  let queryIndex := index * queries.length / numContents
  jsOrString (queries.get? queryIndex) (jsOrString (queries.get? 0) "")

/-- The element shape of fanout.ts `relevantItems` before its filter
(`url` is `urls[index]`, possibly `undefined`). -/
structure RelevantItem where
  content : String
  url : Option String
  relevant : Bool
deriving DecidableEq, Repr

/-- fanout.ts lines 300-309: re-pair contents with their URLs and
relevance verdicts (`relevanceResults[index]?.relevant || false`), then
keep the relevant ones whose `url` is a nonempty string. -/
def relevantItemsOf (contents urls : List String)
    (relevanceResults : List RelevanceResult) : List RelevantItem :=
  (contents.enum.map (fun p =>
    { content := p.2
      url := urls.get? p.1
      relevant := (((relevanceResults.get? p.1).map (fun r => r.relevant)).getD false) }))
    |>.filter (fun item =>
      item.relevant && (match item.url with | some u => u != "" | none => false))

/-- fanout.ts `extractInsightsFromContent` (later revision): filter the
contents once more (`Error fetching` prefix, trimmed length under 100),
then one extraction LLM call per surviving body — a per-item rejection
is caught and drops that item alone — and one `Finding` per nonblank
extraction, with `source := urls[index] ?? ''` where `index` counts
within the re-filtered list. -/
def extractInsightsFromContent (env : Env) (contents urls : List String)
    (question : String) : List Finding :=
  let validContents := contents.filter (fun content =>
    !(jsStartsWith content "Error fetching") && (jsTrim content).length ≥ 100)
  (validContents.enum.map (fun p =>
    match env.llmExtract (buildContentExtractionPrompt p.2) with
    | .error _ => none
    | .ok text =>
        if (jsTrim text).length > 0 then
          some { id := env.uuid p.1
                 content := text
                 source := (urls.get? p.1).getD ""
                 timestamp := 0 }
        else none)).filterMap id

/-- fanout.ts lines 240-256: issue one search of 6 results per query in
parallel, flatten the successful responses, `slice(0, 9)`. -/
def strategyTopResults (env : Env) (queries : List String) : List SearchResult :=
  (successfulSearchData (queries.map
    (fun query => executeGoogleSearch env.searchGoogle query 6 1))).take 9

/-- fanout.ts `executeInvestigationStrategy`: specialized queries, 6
results per parallel search, flatten successes, `slice(0, 9)`, parallel
fetches with `max_length` 10000 (a thrown fetch rejects the whole
`Promise.all`), the fetched-items filter, one relevance judgment per
surviving body, the relevant-items filter, and insight extraction. -/
def executeInvestigationStrategy (env : Env) (state : ResearchState)
    (strategy : InvestigationStrategy) : Except String (List Finding) :=
  match env.llmSpecializedQueries strategy with
  | .error e => .error e
  | .ok queries =>
      let topResults := strategyTopResults env queries
      match topResults.mapM (fun item => executeWebFetch env.fetch item.url 10000 0) with
      | .error e => .error e
      | .ok contentResponses =>
          let contents := (fetchedItems topResults contentResponses).map
            (fun item => item.content)
          let urls := (fetchedItems topResults contentResponses).map
            (fun item => item.url)
          match contents.enum.mapM (fun p =>
              checkContentRelevance env state p.2 strategy.question
                (relevanceQueryAt queries contents.length p.1)) with
          | .error e => .error e
          | .ok relevanceResults =>
              let relevantItems := relevantItemsOf contents urls relevanceResults
              .ok (extractInsightsFromContent env
                (relevantItems.map (fun item => item.content))
                (relevantItems.map (fun item => item.url.getD ""))
                strategy.question)

/-- fanout.ts `executeFanOutInvestigation`: all strategies in parallel
(`Promise.all`), flatten, `addFindings`, `updatePhase('investigating')`. -/
def executeFanOutInvestigation (env : Env) (state : ResearchState) (plan : ResearchPlan) :
    ResearchState × Except String (List Finding) :=
  match plan.investigationStrategies.mapM
      (fun strategy => executeInvestigationStrategy env state strategy) with
  | .error e => (state, .error e)
  | .ok results =>
      let allFindings := results.flatten
      let state := addFindings state allFindings
      let state := updatePhase state .investigating
      (state, .ok allFindings)

/-! ## Phase 4 — Synthesis (synthesis.ts, later revision) -/

/-- The `[...new Set(xs)]` idiom: deduplicate by exact match, first-seen order
(JS `Set` iterates in insertion order). -/
def dedupFirstSeen (xs : List String) : List String :=
  xs.foldl (fun acc x => if x ∈ acc then acc else acc ++ [x]) []

/-- synthesis.ts `createFinalReport` (later revision): assemble the
markdown document and the report object; `sources` deduplicates the
URLs of `state.searchResults`, `findingsCount` and `sourcesConsulted`
are the current list lengths. -/
def createFinalReport (state : ResearchState) (synthesis : ResearchSynthesis) : ResearchReport :=
  let detailedFindings :=
    "# Research Report: " ++ state.query
      ++ "\n\n## Executive Summary\n" ++ synthesis.summary
      ++ "\n\n## Detailed Findings\n" ++ synthesis.content
      ++ "\n\n## Key Insights\n"
      ++ String.intercalate "\n"
          (synthesis.keyInsights.enum.map (fun p => toString (p.1 + 1) ++ ". " ++ p.2))
      ++ "\n\n## Conclusions\n"
      ++ String.intercalate "\n"
          (synthesis.conclusions.enum.map (fun p => toString (p.1 + 1) ++ ". " ++ p.2))
      ++ "\n\n## Sources\n"
      ++ String.intercalate "\n" (state.searchResults.map (fun r => "- " ++ r.url))
      ++ "\n"
  { query := state.query
    executiveSummary := synthesis.summary
    detailedFindings := detailedFindings
    sources := dedupFirstSeen (state.searchResults.map (fun r => r.url))
    metadata := { findingsCount := state.findings.length
                  sourcesConsulted := state.webContents.length } }

/-- synthesis.ts `executeSynthesis`: one LLM call (whose `JSON.parse`
failure rejects), then `createFinalReport`, `setReport`,
`updatePhase('synthesizing')`. -/
def executeSynthesis (env : Env) (state : ResearchState) :
    ResearchState × Except String ResearchReport :=
  match env.llmSynthesis state.query
      (String.intercalate "\n</finding>\n<finding>\n" (state.findings.map (fun f => f.content)))
      (((state.researchPlan.map (fun p => p.synthesisStrategy))).getD "") with
  | .error e => (state, .error e)
  | .ok synthesis =>
      let report := createFinalReport state synthesis
      let state := setReport state report
      let state := updatePhase state .synthesizing
      (state, .ok report)

/-! ## Orchestrator (index.ts) -/

/-- The four phase executors as the orchestrator sees them: each takes
the state and returns the state as mutated so far together with the
result or the propagated exception. -/
structure Phases where
  phase1 : ResearchState → ResearchState × Except String InitialSearchResult
  phase2 : ResearchState → ResearchState × Except String ResearchPlan
  phase3 : ResearchState → ResearchPlan → ResearchState × Except String (List Finding)
  phase4 : ResearchState → ResearchState × Except String ResearchReport

/-- The `try` block of index.ts `performDeepResearch`: run the phases in
sequence, stopping at the first exception; the returned state is the
state at that point. -/
def runPipeline (ph : Phases) (state : ResearchState) :
    ResearchState × Except String ResearchReport :=
  match ph.phase1 state with
  | (s1, .error e) => (s1, .error e)
  | (s1, .ok _) =>
      match ph.phase2 s1 with
      | (s2, .error e) => (s2, .error e)
      | (s2, .ok plan) =>
          match ph.phase3 s2 plan with
          | (s3, .error e) => (s3, .error e)
          | (s3, .ok _) => ph.phase4 s3

/-- The partial-report object literal from the `catch` block of
index.ts `performDeepResearch` (lines 67-76), built from the state as
accumulated when the exception surfaced. -/
def degradedReport (query : String) (state : ResearchState) : ResearchReport :=
  { query := query
    executiveSummary := "Research was partially completed due to an error."
    detailedFindings := String.intercalate "\n\n" (state.findings.map (fun f => f.content))
    sources := state.searchResults.map (fun r => r.url)
    metadata := { findingsCount := state.findings.length
                  sourcesConsulted := state.webContents.length } }

/-- index.ts `performDeepResearch`: initialize the state, run the four
phases inside `try`, and on any exception return the degraded report
instead of re-throwing. -/
def performDeepResearch (ph : Phases) (sessionId query : String) : ResearchReport :=
  match runPipeline ph (initializeResearch sessionId query) with
  | (_, .ok report) => report
  | (state, .error _) => degradedReport query state

/-- The four concrete phase executors of this repository, over the
oracle environment. -/
def phasesImpl (env : Env) : Phases :=
  { phase1 := executeInitialSearch env
    phase2 := executeStrategicPlanning env
    phase3 := executeFanOutInvestigation env
    phase4 := executeSynthesis env }

/-- Whether an `Except` carries a success. -/
def isOkResult (e : Except String α) : Bool :=
  match e with
  | .ok _ => true
  | .error _ => false

/-! ## Concrete fixtures used by witnesses and counterexamples -/

/-- A search result for a URL, with fixed title/snippet shape. -/
def mkResult (u : String) : SearchResult :=
  { title := "t", url := u, snippet := "snippet " ++ u, position := 1 }

/-- An environment in which every external call fails; concrete
scenarios override the oracles they exercise. -/
def baseEnv : Env :=
  { llmInitialQueries := fun _ => .error "unavailable"
    llmKnowledgeGaps := fun _ _ => .error "unavailable"
    llmResearchPlan := fun _ _ _ => .error "unavailable"
    llmSpecializedQueries := fun _ => .error "unavailable"
    llmRelevance := fun _ => .error "unavailable"
    llmExtract := fun _ => .error "unavailable"
    llmSynthesis := fun _ _ _ => .error "unavailable"
    searchGoogle := fun _ _ _ => .error "unavailable"
    fetch := fun _ => .throws "unavailable"
    uuid := fun n => "uuid-" ++ toString n }

/-- An empty research plan fixture. -/
def emptyPlan : ResearchPlan :=
  { researchQuestions := [], investigationStrategies := [], synthesisStrategy := "" }

/-- A strategy fixture for Phase-3 scenarios. -/
def strategyQ : InvestigationStrategy :=
  { question := "Q", approach := "A", expectedSources := [] }

/-! ## Shared lemmas -/

/-- On an error outcome, the orchestrator returns exactly the degraded
report built from the state at the throw. -/
theorem performDeepResearch_error (ph : Phases) (sessionId query : String)
    (s : ResearchState) (e : String)
    (h : runPipeline ph (initializeResearch sessionId query) = (s, .error e)) :
    performDeepResearch ph sessionId query = degradedReport query s := by
  unfold performDeepResearch
  rw [h]

/-- On a success outcome, the orchestrator returns the report produced
by the pipeline. -/
theorem performDeepResearch_ok (ph : Phases) (sessionId query : String)
    (s : ResearchState) (r : ResearchReport)
    (h : runPipeline ph (initializeResearch sessionId query) = (s, .ok r)) :
    performDeepResearch ph sessionId query = r := by
  unfold performDeepResearch
  rw [h]

theorem dedupFirstSeen_loop_nodup (xs acc : List String) (hacc : acc.Nodup) :
    (xs.foldl (fun acc x => if x ∈ acc then acc else acc ++ [x]) acc).Nodup := by
  induction xs generalizing acc with
  | nil => simpa using hacc
  | cons x xs ih =>
      simp only [List.foldl_cons]
      by_cases hx : x ∈ acc
      · simpa [hx] using ih acc hacc
      · refine ih _ ?_
        simp [hx, List.nodup_append, hacc]

/-- The list `[...new Set(xs)]` has no duplicates. -/
theorem dedupFirstSeen_nodup (xs : List String) : (dedupFirstSeen xs).Nodup :=
  dedupFirstSeen_loop_nodup xs [] List.nodup_nil

theorem dedupFirstSeen_loop_mem (xs acc : List String) (u : String)
    (h : u ∈ xs.foldl (fun acc x => if x ∈ acc then acc else acc ++ [x]) acc) :
    u ∈ acc ∨ u ∈ xs := by
  induction xs generalizing acc with
  | nil => exact Or.inl (by simpa using h)
  | cons x xs ih =>
      simp only [List.foldl_cons] at h
      rcases ih _ h with hm | hm
      · by_cases hx : x ∈ acc
        · simp only [if_pos hx] at hm
          exact Or.inl hm
        · simp only [if_neg hx, List.mem_append, List.mem_singleton] at hm
          rcases hm with hm | hm
          · exact Or.inl hm
          · exact Or.inr (by simp [hm])
      · exact Or.inr (by simp [hm])

/-- Every element of `[...new Set(xs)]` occurs in `xs`. -/
theorem mem_of_mem_dedupFirstSeen (xs : List String) (u : String)
    (h : u ∈ dedupFirstSeen xs) : u ∈ xs := by
  rcases dedupFirstSeen_loop_mem xs [] u h with hm | hm
  · simp at hm
  · exact hm

/-! ## C9 — state operations preserve findings, sessionId, query -/

/-- C9: every state-mutating operation preserves the existing findings
sequence as a prefix (`addFindings` appends exactly its argument, the
others leave `findings` untouched) and leaves `sessionId` and `query`
unchanged; `initializeResearch` creates the state with empty findings
and the given `sessionId` and `query`. -/
theorem C9_state_invariants (sessionId query : String) (s : ResearchState)
    (phase : ResearchPhase) (results : List SearchResult)
    (contents : List WebContent) (fs : List Finding) (plan : ResearchPlan)
    (report : ResearchReport) (qs : List String) :
    ((initializeResearch sessionId query).findings = []
      ∧ (initializeResearch sessionId query).sessionId = sessionId
      ∧ (initializeResearch sessionId query).query = query)
    ∧ ((updatePhase s phase).findings = s.findings
      ∧ (updatePhase s phase).sessionId = s.sessionId
      ∧ (updatePhase s phase).query = s.query)
    ∧ ((addSearchResults s results).findings = s.findings
      ∧ (addSearchResults s results).sessionId = s.sessionId
      ∧ (addSearchResults s results).query = s.query)
    ∧ ((addWebContents s contents).findings = s.findings
      ∧ (addWebContents s contents).sessionId = s.sessionId
      ∧ (addWebContents s contents).query = s.query)
    ∧ ((addFindings s fs).findings = s.findings ++ fs
      ∧ s.findings <+: (addFindings s fs).findings
      ∧ (addFindings s fs).sessionId = s.sessionId
      ∧ (addFindings s fs).query = s.query)
    ∧ ((setResearchPlan s plan).findings = s.findings
      ∧ (setResearchPlan s plan).sessionId = s.sessionId
      ∧ (setResearchPlan s plan).query = s.query)
    ∧ ((setReport s report).findings = s.findings
      ∧ (setReport s report).sessionId = s.sessionId
      ∧ (setReport s report).query = s.query)
    ∧ ((addFollowUpQueries s qs).findings = s.findings
      ∧ (addFollowUpQueries s qs).sessionId = s.sessionId
      ∧ (addFollowUpQueries s qs).query = s.query) :=
  ⟨⟨rfl, rfl, rfl⟩, ⟨rfl, rfl, rfl⟩, ⟨rfl, rfl, rfl⟩, ⟨rfl, rfl, rfl⟩,
    ⟨rfl, ⟨fs, rfl⟩, rfl, rfl⟩, ⟨rfl, rfl, rfl⟩, ⟨rfl, rfl, rfl⟩, ⟨rfl, rfl, rfl⟩⟩

/-! ## C1 — the orchestrator never raises and degrades faithfully -/

/-- C1: `performDeepResearch` is total (it returns a `ResearchReport`
for every phase behavior), and when any phase throws it returns the
degraded report whose `executiveSummary` is the fixed notice, whose
`detailedFindings` joins all accumulated findings' content, whose
`sources` are the URLs of the accumulated `searchResults`, and whose
`metadata.findingsCount` is `state.findings.length` measured at the
throw. -/
theorem C1_degraded_report (ph : Phases) (sessionId query : String)
    (s : ResearchState) (e : String)
    (h : runPipeline ph (initializeResearch sessionId query) = (s, .error e)) :
    performDeepResearch ph sessionId query =
      { query := query
        executiveSummary := "Research was partially completed due to an error."
        detailedFindings := String.intercalate "\n\n" (s.findings.map (fun f => f.content))
        sources := s.searchResults.map (fun r => r.url)
        metadata := { findingsCount := s.findings.length
                      sourcesConsulted := s.webContents.length } } :=
  performDeepResearch_error ph sessionId query s e h

/-- Phase behavior where Phase 2 throws after Phase 1 accumulated two
findings from two search results. -/
def phasesC1 : Phases :=
  { phase1 := fun s =>
      (addFindings (addSearchResults s [mkResult "https://a.example/", mkResult "https://b.example/"])
        [{ id := "f1", content := "alpha", source := "https://a.example/", timestamp := 0 },
         { id := "f2", content := "beta", source := "https://b.example/", timestamp := 0 }],
        .ok { findings := [], sources := [] })
    phase2 := fun s => (s, .error "plan JSON malformed")
    phase3 := fun s _ => (s, .ok [])
    phase4 := fun s => (s, .error "unreached") }

/-- A successful synthesis phase returns `createFinalReport` of its
input state and leaves `searchResults` unchanged. -/
theorem executeSynthesis_ok (env : Env) (s s' : ResearchState) (r : ResearchReport)
    (h : executeSynthesis env s = (s', .ok r)) :
    (∃ synthesis, r = createFinalReport s synthesis)
      ∧ s'.searchResults = s.searchResults
      ∧ s'.webContents = s.webContents := by
  unfold executeSynthesis at h
  revert h
  cases env.llmSynthesis s.query
      (String.intercalate "\n</finding>\n<finding>\n" (s.findings.map (fun f => f.content)))
      ((s.researchPlan.map (fun p => p.synthesisStrategy)).getD "") with
  | error e => intro h; simp at h
  | ok synthesis =>
      intro h
      simp only [Prod.mk.injEq, Except.ok.injEq] at h
      obtain ⟨hs, hr⟩ := h
      subst hs
      exact ⟨⟨synthesis, hr.symm⟩, rfl, rfl⟩

/-- A successful run of the concrete pipeline ends in
`createFinalReport` applied to the pre-synthesis state, whose
`searchResults` agree with the final state's. -/
theorem runPipeline_impl_ok (env : Env) (s0 s : ResearchState) (r : ResearchReport)
    (h : runPipeline (phasesImpl env) s0 = (s, .ok r)) :
    ∃ s3 synthesis, r = createFinalReport s3 synthesis
      ∧ s.searchResults = s3.searchResults
      ∧ s.webContents = s3.webContents := by
  unfold runPipeline phasesImpl at h
  dsimp only at h
  rcases h1 : executeInitialSearch env s0 with ⟨s1, r1⟩
  rw [h1] at h
  cases r1 with
  | error e => simp at h
  | ok ir =>
      dsimp only at h
      rcases h2 : executeStrategicPlanning env s1 with ⟨s2, r2⟩
      rw [h2] at h
      cases r2 with
      | error e => simp at h
      | ok plan =>
          dsimp only at h
          rcases h3 : executeFanOutInvestigation env s2 plan with ⟨s3, r3⟩
          rw [h3] at h
          cases r3 with
          | error e => simp at h
          | ok fs =>
              dsimp only at h
              obtain ⟨⟨synthesis, hr⟩, hsr, hw⟩ := executeSynthesis_ok env s3 s r h
              exact ⟨s3, synthesis, hr, hsr, hw⟩

/-! ## C2 — deduplication of report sources -/

/-- Environment for the C2 counterexample: two generated queries both
return the same URL, and the planning phase throws, so the degraded
report is built from duplicated `searchResults`. -/
def envC2 : Env :=
  { baseEnv with
    llmInitialQueries := fun _ => .ok ["a", "b"]
    searchGoogle := fun _ _ _ => .ok [mkResult "https://dup.example/"] }

/-- C2 as stated is false: a run that ends with the degraded report can
return duplicated sources — here `searchResults` holds the same URL
twice (once per generated query) and the degraded report copies the raw
URL list without set semantics. -/
theorem C2_sources_counterexample :
    (performDeepResearch (phasesImpl envC2) "session-2" "topic").sources =
      ["https://dup.example/", "https://dup.example/"]
    ∧ ¬ (performDeepResearch (phasesImpl envC2) "session-2" "topic").sources.Nodup :=
  ⟨by decide, by decide⟩

/-- C2 amended: on normal completion `report.sources` holds no
duplicate URLs and every one of them is the URL of a recorded
`searchResults` entry; on the degraded path `report.sources` is exactly
the raw URL list of the recorded `searchResults` (so every URL appeared
during the run, but duplicates are not removed). -/
theorem C2_sources_amended (env : Env) (sessionId query : String) :
    (isOkResult (runPipeline (phasesImpl env) (initializeResearch sessionId query)).2 = true →
      ((performDeepResearch (phasesImpl env) sessionId query).sources.Nodup
        ∧ ∀ u ∈ (performDeepResearch (phasesImpl env) sessionId query).sources,
            u ∈ (runPipeline (phasesImpl env) (initializeResearch sessionId query)).1.searchResults.map
              (fun r => r.url)))
    ∧ (isOkResult (runPipeline (phasesImpl env) (initializeResearch sessionId query)).2 = false →
      (performDeepResearch (phasesImpl env) sessionId query).sources =
        (runPipeline (phasesImpl env) (initializeResearch sessionId query)).1.searchResults.map
          (fun r => r.url)) := by
  rcases hrun : runPipeline (phasesImpl env) (initializeResearch sessionId query) with ⟨s, res⟩
  cases res with
  | error e =>
      constructor
      · intro hok
        simp [isOkResult] at hok
      · intro _
        rw [performDeepResearch_error (phasesImpl env) sessionId query s e hrun]
        rfl
  | ok r =>
      constructor
      · intro _
        rw [performDeepResearch_ok (phasesImpl env) sessionId query s r hrun]
        obtain ⟨s3, synthesis, hr, hsr, -⟩ := runPipeline_impl_ok env _ s r hrun
        subst hr
        refine ⟨dedupFirstSeen_nodup _, ?_⟩
        intro u hu
        have hmem : u ∈ s3.searchResults.map (fun r => r.url) :=
          mem_of_mem_dedupFirstSeen _ u hu
        simpa [hsr] using hmem
      · intro hok
        simp [isOkResult] at hok

/-- Environment for the C2 witness: the whole pipeline succeeds with an
empty strategy list. -/
def envC2ok : Env :=
  { baseEnv with
    llmInitialQueries := fun _ => .ok ["a"]
    searchGoogle := fun _ _ _ => .ok [mkResult "https://w.example/"]
    llmKnowledgeGaps := fun _ _ => .ok "gap one\n\ngap two"
    llmResearchPlan := fun _ _ _ => .ok emptyPlan
    llmSynthesis := fun _ _ _ =>
      .ok { summary := "s", content := "c", keyInsights := [], conclusions := [] } }

theorem C2_sources_amended_witness :
    (performDeepResearch (phasesImpl envC2ok) "session-2b" "topic").sources.Nodup
    ∧ "https://w.example/" ∈
        (runPipeline (phasesImpl envC2ok) (initializeResearch "session-2b" "topic")).1.searchResults.map
          (fun r => r.url) :=
  ⟨((C2_sources_amended envC2ok "session-2b" "topic").1 (by decide)).1,
    ((C2_sources_amended envC2ok "session-2b" "topic").1 (by decide)).2
      "https://w.example/" (by decide)⟩

theorem C1_degraded_report_witness :
    performDeepResearch phasesC1 "session-1" "topic" =
      { query := "topic"
        executiveSummary := "Research was partially completed due to an error."
        detailedFindings := "alpha\n\nbeta"
        sources := ["https://a.example/", "https://b.example/"]
        metadata := { findingsCount := 2, sourcesConsulted := 0 } } :=
  C1_degraded_report phasesC1 "session-1" "topic"
    ((phasesC1.phase1 (initializeResearch "session-1" "topic")).1) "plan JSON malformed" rfl

/-! ## C3 — granularity of leaf-failure containment (fetch throws) -/

/-- A 150-character body, long enough for every length gate. -/
def c150 : String := String.mk (List.replicate 150 'b')

/-- Environment for C3: a strategy whose search returns two URLs; the
fetch of the second rejects at the network level (the `fetch()` promise
itself, e.g. a DNS failure), the first succeeds. -/
def envC3 : Env :=
  { baseEnv with
    llmSpecializedQueries := fun _ => .ok ["q"]
    searchGoogle := fun _ _ _ =>
      .ok [mkResult "https://ok.example/", mkResult "https://down.example/"]
    fetch := fun u => if u = "https://down.example/" then .throws "network error"
      else .body c150
    llmRelevance := fun _ => .ok { relevant := true, reason := none }
    llmExtract := fun _ => .ok "insight" }

set_option maxRecDepth 8000 in
/-- C3 is violated by the code: `executeWebFetch` has no `try/catch`
(unlike its sibling `executeGoogleSearch`), so a network-level rejection
for one URL propagates out of the per-fetch wrapper, out of the
`Promise.all` of the fan-out batch — discarding its healthy sibling,
which had succeeded — and fails the whole strategy and hence the whole
phase, instead of contributing nothing. -/
theorem C3_fetch_throw_propagates :
    executeWebFetch envC3.fetch "https://down.example/" 10000 0 = .error "network error"
    ∧ executeWebFetch envC3.fetch "https://ok.example/" 10000 0 = .ok (.success c150)
    ∧ executeInvestigationStrategy envC3 (initializeResearch "session-3" "topic") strategyQ
        = .error "network error"
    ∧ executeFanOutInvestigation envC3 (initializeResearch "session-3" "topic")
        { researchQuestions := [], investigationStrategies := [strategyQ],
          synthesisStrategy := "" }
        = (initializeResearch "session-3" "topic", .error "network error") :=
  ⟨rfl, rfl, rfl, rfl⟩

/-! ## C7 — the 100-character survival threshold -/

/-- A body of exactly 100 characters. -/
def c100 : String := String.mk (List.replicate 100 'a')

set_option maxRecDepth 8000 in
/-- C7 as stated is false at the boundary: a successfully fetched body
of exactly 100 characters is not "shorter than 100", yet it is
discarded (the filter keeps only `content.length > 100`), so it never
reaches the relevance gate. -/
theorem C7_threshold_counterexample :
    c100.length = 100
    ∧ fetchedItems [mkResult "https://hundred.example/"] [ToolResponse.success c100] = [] :=
  ⟨by decide, by decide⟩

/-- C7 amended: a successfully fetched body survives to the relevance
gate exactly when its length is at least 101 characters (and its
originating URL is known): every surviving item is a successful fetch
of length ≥ 101 with a nonempty URL, and conversely every successful
response whose body has length ≥ 101 and whose slot has a nonempty URL
appears among the surviving items. -/
theorem C7_threshold_amended (topResults : List SearchResult)
    (contentResponses : List (ToolResponse String)) :
    (∀ item ∈ fetchedItems topResults contentResponses,
      item.success = true ∧ 101 ≤ item.content.length ∧ item.url ≠ "")
    ∧ (∀ i (hi : i < contentResponses.length) (c : String),
        contentResponses.get ⟨i, hi⟩ = .success c →
        101 ≤ c.length →
        ((topResults.get? i).map (fun r => r.url)).getD "" ≠ "" →
        ({ content := c
           url := ((topResults.get? i).map (fun r => r.url)).getD ""
           success := true } : ContentWithUrl) ∈ fetchedItems topResults contentResponses) := by
  constructor
  · intro item hitem
    unfold fetchedItems at hitem
    have hp := List.of_mem_filter hitem
    simp only [Bool.and_eq_true, decide_eq_true_eq, bne_iff_ne] at hp
    exact ⟨hp.1.1, hp.1.2, hp.2⟩
  · intro i hi c hc hlen hurl
    unfold fetchedItems
    apply List.mem_filter.mpr
    constructor
    · apply List.mem_map.mpr
      refine ⟨(i, contentResponses.get ⟨i, hi⟩), ?_, ?_⟩
      · apply List.mem_enum_iff_getElem?.mpr
        simp [List.getElem?_eq_getElem hi]
      · rw [hc]
        rfl
    · simp only [Bool.and_eq_true, decide_eq_true_eq, bne_iff_ne]
      exact ⟨⟨by trivial, hlen⟩, hurl⟩

/-- An environment whose single fetch yields a 150-character body. -/
def envC7 : Env :=
  { baseEnv with fetch := fun _ => .body c150 }

set_option maxRecDepth 8000 in
theorem C7_threshold_amended_witness :
    ({ content := c150, url := "https://w7.example/", success := true } : ContentWithUrl)
      ∈ fetchedItems [mkResult "https://w7.example/"] [ToolResponse.success c150]
    ∧ (101 ≤ ({ content := c150, url := "https://w7.example/", success := true }
        : ContentWithUrl).content.length) :=
  ⟨(C7_threshold_amended [mkResult "https://w7.example/"] [ToolResponse.success c150]).2
      0 (by decide) c150 rfl (by decide) (by decide),
    by decide⟩

/-! ## C8 — Phase-1 search fan-out and finding derivation -/

/-- Flattening successful responses is the same as letting every failed
response contribute the empty list: a failed search call is "zero
results" and does not disturb its siblings' contributions. -/
theorem successfulSearchData_eq (rs : List (ToolResponse (List SearchResult))) :
    successfulSearchData rs = (rs.map (fun r => r.dataD [])).flatten := by
  induction rs with
  | nil => rfl
  | cons hd tl ih =>
      cases hd <;>
        simp_all [successfulSearchData, ToolResponse.isSuccess, ToolResponse.dataD,
          List.filter_cons]

/-- One finding per search result, content from the snippet, source
from the URL, in order. -/
theorem extractInitialFindings_spec (uuid : Nat → String) (results : List SearchResult) :
    (extractInitialFindings uuid results).map (fun f => (f.content, f.source))
      = results.map (fun s => (s.snippet, s.url)) := by
  unfold extractInitialFindings
  rw [List.map_map]
  conv_rhs => rw [(List.enum_map_snd results).symm, List.map_map]
  rfl

/-- C8: when Phase 1 returns, its findings are exactly one per
flattened search result — content from the snippet, source from the URL,
no deduplication or filtering — and the flattened sequence itself is the
concatenation, in query order, of each search call's contribution, a
failed call contributing the empty list without affecting siblings. -/
theorem C8_initial_search (env : Env) (state : ResearchState) (r : InitialSearchResult)
    (h : (executeInitialSearch env state).2 = .ok r) :
    r.findings.map (fun f => (f.content, f.source))
      = r.sources.map (fun s => (s.snippet, s.url))
    ∧ ∀ qs, env.llmInitialQueries state.query = .ok qs →
        r.sources = (qs.map (fun q =>
          (executeGoogleSearch env.searchGoogle q 8 1).dataD [])).flatten := by
  unfold executeInitialSearch at h
  revert h
  cases hq : env.llmInitialQueries state.query with
  | error e => intro h; simp at h
  | ok searchQueries =>
      intro h
      simp only [Except.ok.injEq] at h
      subst h
      constructor
      · exact extractInitialFindings_spec env.uuid _
      · intro qs hqs
        simp only [Except.ok.injEq] at hqs
        subst hqs
        rw [successfulSearchData_eq, List.map_map]
        rfl

/-- Environment for the C8 witness: two generated queries, the second
search call fails, the first returns one result. -/
def envC8 : Env :=
  { baseEnv with
    llmInitialQueries := fun _ => .ok ["good", "bad"]
    searchGoogle := fun q _ _ =>
      if q = "bad" then .error "search down" else .ok [mkResult "https://c8.example/"] }

/-- The Phase-1 result in the C8 witness scenario. -/
def resultC8 : InitialSearchResult :=
  { findings := [{ id := "uuid-0", content := "snippet https://c8.example/",
                   source := "https://c8.example/", timestamp := 0 }]
    sources := [mkResult "https://c8.example/"] }

theorem C8_initial_search_witness :
    resultC8.findings.map (fun f => (f.content, f.source))
      = resultC8.sources.map (fun s => (s.snippet, s.url))
    ∧ resultC8.sources = ((["good", "bad"].map (fun q =>
        (executeGoogleSearch envC8.searchGoogle q 8 1).dataD [])).flatten) :=
  ⟨(C8_initial_search envC8 (initializeResearch "session-8" "topic") resultC8 rfl).1,
    (C8_initial_search envC8 (initializeResearch "session-8" "topic") resultC8 rfl).2
      ["good", "bad"] rfl⟩

/-! ## Fan-out run decomposition and counting lemmas -/

/-- The surviving contents of a strategy run (fanout.ts line 281). -/
def strategyContents (env : Env) (queries : List String)
    (contentResponses : List (ToolResponse String)) : List String :=
  (fetchedItems (strategyTopResults env queries) contentResponses).map
    (fun item => item.content)

/-- The URLs aligned with `strategyContents` (fanout.ts line 282). -/
def strategyUrls (env : Env) (queries : List String)
    (contentResponses : List (ToolResponse String)) : List String :=
  (fetchedItems (strategyTopResults env queries) contentResponses).map
    (fun item => item.url)

/-- If the underlying fetch never yields a body, a non-throwing
`executeWebFetch` call returns a failure envelope. -/
theorem executeWebFetch_ok_isSuccess_false (fetch : String → FetchOutcome)
    (u : String) (maxLength startIndex : Nat) (resp : ToolResponse String)
    (hfail : ∀ text, fetch u ≠ .body text)
    (h : executeWebFetch fetch u maxLength startIndex = .ok resp) :
    resp.isSuccess = false := by
  unfold executeWebFetch at h
  revert h
  cases hfetch : fetch u with
  | throws msg => intro h; simp at h
  | httpError status =>
      intro h
      simp only [Except.ok.injEq] at h
      rw [← h]
      rfl
  | body text =>
      intro _
      exact absurd hfetch (hfail text)

/-- A `Promise.all` over `Except`: a fully successful join settles each
call with its own result, positionally. -/
theorem mapM_ok_forall2 {α β : Type} (f : α → Except String β) :
    ∀ (xs : List α) (ys : List β), xs.mapM f = .ok ys →
      List.Forall₂ (fun x y => f x = .ok y) xs ys := by
  intro xs
  induction xs with
  | nil =>
      intro ys h
      simp only [List.mapM_nil, pure, Except.pure, Except.ok.injEq] at h
      subst h
      exact List.Forall₂.nil
  | cons x xs ih =>
      intro ys h
      rw [List.mapM_cons] at h
      cases hfx : f x with
      | error e =>
          rw [hfx] at h
          simp [Bind.bind, Except.bind] at h
      | ok y =>
          rw [hfx] at h
          cases hxs : xs.mapM f with
          | error e =>
              rw [hxs] at h
              simp [Bind.bind, Except.bind] at h
          | ok ys2 =>
              rw [hxs] at h
              simp only [Bind.bind, Except.bind, pure, Except.pure,
                Except.ok.injEq] at h
              subst h
              exact List.Forall₂.cons hfx (ih ys2 hxs)

/-- A successful strategy run decomposes into its intermediate stage
lists: the generated queries, the fetch responses of the top results,
the relevance judgments over the surviving contents (each judged
against the strategy question and the `relevanceQueryAt` search query),
and the insight extraction over the relevance-filtered pairs. -/
theorem executeInvestigationStrategy_ok (env : Env) (state : ResearchState)
    (strategy : InvestigationStrategy) (findings : List Finding)
    (h : executeInvestigationStrategy env state strategy = .ok findings) :
    ∃ queries contentResponses relevanceResults,
      env.llmSpecializedQueries strategy = .ok queries
      ∧ (strategyTopResults env queries).mapM
          (fun item => executeWebFetch env.fetch item.url 10000 0) = .ok contentResponses
      ∧ (strategyContents env queries contentResponses).enum.mapM (fun p =>
          checkContentRelevance env state p.2 strategy.question
            (relevanceQueryAt queries
              (strategyContents env queries contentResponses).length p.1))
          = .ok relevanceResults
      ∧ findings = extractInsightsFromContent env
          ((relevantItemsOf (strategyContents env queries contentResponses)
              (strategyUrls env queries contentResponses) relevanceResults).map
            (fun item => item.content))
          ((relevantItemsOf (strategyContents env queries contentResponses)
              (strategyUrls env queries contentResponses) relevanceResults).map
            (fun item => item.url.getD ""))
          strategy.question := by
  unfold executeInvestigationStrategy at h
  revert h
  cases hq : env.llmSpecializedQueries strategy with
  | error e => intro h; simp at h
  | ok queries =>
      dsimp only
      cases hf : (strategyTopResults env queries).mapM
          (fun item => executeWebFetch env.fetch item.url 10000 0) with
      | error e => intro h; simp at h
      | ok contentResponses =>
          dsimp only
          cases hr : ((fetchedItems (strategyTopResults env queries) contentResponses).map
              (fun item => item.content)).enum.mapM (fun p =>
                checkContentRelevance env state p.2 strategy.question
                  (relevanceQueryAt queries
                    ((fetchedItems (strategyTopResults env queries) contentResponses).map
                      (fun item => item.content)).length p.1)) with
          | error e => intro h; simp at h
          | ok relevanceResults =>
              intro h
              simp only [Except.ok.injEq] at h
              exact ⟨queries, contentResponses, relevanceResults, rfl, hf, hr, h.symm⟩

/-- JS `l[i + 1]` is `l.tail[i]`. -/
theorem get?_succ_tail {α : Type} (l : List α) (i : Nat) :
    l.get? (i + 1) = l.tail.get? i := by
  cases l <;> simp

theorem map_enumFrom_eq {α β : Type} :
    ∀ (l : List α) (n m : Nat) (g h : Nat × α → β),
      (∀ i a, g (n + i, a) = h (m + i, a)) →
      (List.enumFrom n l).map g = (List.enumFrom m l).map h := by
  intro l
  induction l with
  | nil => intro n m g h _; rfl
  | cons a l ih =>
      intro n m g h hgh
      show g (n, a) :: (List.enumFrom (n + 1) l).map g
          = h (m, a) :: (List.enumFrom (m + 1) l).map h
      have hhead : g (n, a) = h (m, a) := hgh 0 a
      rw [hhead, ih (n + 1) (m + 1) g h]
      intro i a
      have := hgh (i + 1) a
      rwa [Nat.add_succ, Nat.add_succ, ← Nat.succ_add, ← Nat.succ_add] at this

/-- The relevance-filter stage consumes its three lists in lockstep. -/
theorem relevantItemsOf_cons (c : String) (cs us : List String)
    (rs : List RelevanceResult) :
    relevantItemsOf (c :: cs) us rs =
      (if ((((rs.get? 0).map (fun r => r.relevant)).getD false)
            && (match us.get? 0 with | some u => u != "" | none => false))
       then ({ content := c, url := us.get? 0,
               relevant := ((rs.get? 0).map (fun r => r.relevant)).getD false }
              : RelevantItem) :: relevantItemsOf cs us.tail rs.tail
       else relevantItemsOf cs us.tail rs.tail) := by
  unfold relevantItemsOf
  show ((((0, c) :: List.enumFrom 1 cs).map _).filter _) = _
  rw [List.map_cons, List.filter_cons]
  have htail : (List.enumFrom 1 cs).map
        (fun p => ({ content := p.2
                     url := us.get? p.1
                     relevant :=
                       ((rs.get? p.1).map (fun r => r.relevant)).getD false } : RelevantItem))
      = (List.enumFrom 0 cs).map
        (fun p => ({ content := p.2
                     url := us.tail.get? p.1
                     relevant :=
                       ((rs.tail.get? p.1).map (fun r => r.relevant)).getD false }
            : RelevantItem)) := by
    apply map_enumFrom_eq
    intro i a
    have hu : us.get? (1 + i) = us.tail.get? (0 + i) := by
      rw [Nat.add_comm 1 i, Nat.zero_add, get?_succ_tail]
    have hr : rs.get? (1 + i) = rs.tail.get? (0 + i) := by
      rw [Nat.add_comm 1 i, Nat.zero_add, get?_succ_tail]
    rw [hu, hr]
  rw [htail]
  rfl

theorem filter_tail_length_le (rs : List RelevanceResult) :
    (rs.tail.filter (fun r => r.relevant)).length
      ≤ (rs.filter (fun r => r.relevant)).length := by
  cases rs with
  | nil => exact Nat.le_refl _
  | cons r rs2 =>
      simp only [List.tail_cons, List.filter_cons]
      split
      · exact Nat.le_succ _
      · exact Nat.le_refl _

/-- Each item kept by the relevance filter consumes one positive
judgment, so the filtered list is no longer than the number of positive
judgments. -/
theorem relevantItemsOf_length_le :
    ∀ (cs us : List String) (rs : List RelevanceResult),
      (relevantItemsOf cs us rs).length ≤ (rs.filter (fun r => r.relevant)).length := by
  intro cs
  induction cs with
  | nil => intro us rs; simp [relevantItemsOf]
  | cons c cs ih =>
      intro us rs
      rw [relevantItemsOf_cons]
      split
      case isTrue hcond =>
          cases rs with
          | nil => simp at hcond
          | cons r rs2 =>
              simp only [Bool.and_eq_true] at hcond
              have hrel : r.relevant = true := by simpa using hcond.1
              simp only [List.length_cons, List.filter_cons, hrel, if_true,
                List.tail_cons]
              exact Nat.succ_le_succ (ih us.tail rs2)
      case isFalse hcond =>
          exact Nat.le_trans (ih us.tail rs.tail) (filter_tail_length_le rs)

/-- The extraction stage produces at most one finding per incoming
content body. -/
theorem extractInsights_length_le (env : Env) (cs us : List String) (q : String) :
    (extractInsightsFromContent env cs us q).length ≤ cs.length := by
  unfold extractInsightsFromContent
  refine Nat.le_trans (List.length_filterMap_le _ _) ?_
  rw [List.length_map, List.enum_length]
  exact List.length_filter_le _ _

/-! ## C5 — per-strategy bounds -/

/-- C5: for every successful strategy run, the flattened successful
search results are truncated to at most 9 before fetching; the number
of findings contributed is at most the number of relevance-positive
judgments of that strategy; and if no fetch ever yields a body the
contribution is empty. -/
theorem C5_strategy_bounds (env : Env) (state : ResearchState)
    (strategy : InvestigationStrategy) (findings : List Finding)
    (h : executeInvestigationStrategy env state strategy = .ok findings) :
    (∀ queries, env.llmSpecializedQueries strategy = .ok queries →
        (strategyTopResults env queries).length ≤ 9)
    ∧ (∃ queries contentResponses relevanceResults,
        env.llmSpecializedQueries strategy = .ok queries
        ∧ (strategyTopResults env queries).mapM
            (fun item => executeWebFetch env.fetch item.url 10000 0) = .ok contentResponses
        ∧ (strategyContents env queries contentResponses).enum.mapM (fun p =>
            checkContentRelevance env state p.2 strategy.question
              (relevanceQueryAt queries
                (strategyContents env queries contentResponses).length p.1))
            = .ok relevanceResults
        ∧ findings.length ≤ (relevanceResults.filter (fun r => r.relevant)).length)
    ∧ ((∀ url text, env.fetch url ≠ .body text) → findings = []) := by
  obtain ⟨queries, contentResponses, relevanceResults, hq, hf, hr, hfind⟩ :=
    executeInvestigationStrategy_ok env state strategy findings h
  refine ⟨?_, ?_, ?_⟩
  · intro qs _
    rw [strategyTopResults, List.length_take]
    exact Nat.min_le_left _ _
  · refine ⟨queries, contentResponses, relevanceResults, hq, hf, hr, ?_⟩
    rw [hfind]
    refine Nat.le_trans (extractInsights_length_le env _ _ _) ?_
    rw [List.length_map]
    exact relevantItemsOf_length_le _ _ _
  · intro hfail
    have h2 := mapM_ok_forall2 _ _ _ hf
    rw [List.forall₂_iff_get] at h2
    obtain ⟨hlen, hget⟩ := h2
    have hresp : ∀ resp ∈ contentResponses, resp.isSuccess = false := by
      intro resp hrespmem
      obtain ⟨i, hi⟩ := List.mem_iff_get.mp hrespmem
      have hcall := hget i.1 (by omega) i.2
      rw [hi] at hcall
      exact executeWebFetch_ok_isSuccess_false env.fetch _ 10000 0 resp
        (fun text => hfail _ text) hcall
    have hfetched : fetchedItems (strategyTopResults env queries) contentResponses = [] := by
      unfold fetchedItems
      rw [List.filter_eq_nil_iff]
      intro item hitem
      obtain ⟨p, hp, hpeq⟩ := List.mem_map.mp hitem
      have hpmem : p.2 ∈ contentResponses :=
        List.getElem?_mem (List.mem_enum_iff_getElem?.mp hp)
      subst hpeq
      simp [hresp p.2 hpmem]
    have hc : strategyContents env queries contentResponses = [] := by
      rw [strategyContents, hfetched]
      rfl
    have hu : strategyUrls env queries contentResponses = [] := by
      rw [strategyUrls, hfetched]
      rfl
    rw [hfind, hc, hu]
    rfl

/-- Environment for the C5 witness: one query returning ten results,
every fetch failing with an HTTP error. -/
def envC5 : Env :=
  { baseEnv with
    llmSpecializedQueries := fun _ => .ok ["q"]
    searchGoogle := fun _ _ _ =>
      .ok ((List.range 10).map (fun i => mkResult ("https://r" ++ toString i ++ ".example/")))
    fetch := fun _ => .httpError 500
    llmRelevance := fun _ => .ok { relevant := true, reason := none } }

set_option maxRecDepth 8000 in
theorem C5_strategy_bounds_witness :
    (strategyTopResults envC5 ["q"]).length ≤ 9
    ∧ executeInvestigationStrategy envC5 (initializeResearch "session-5" "topic") strategyQ
        = .ok []
    ∧ ([] : List Finding) = [] := by
  have h : executeInvestigationStrategy envC5 (initializeResearch "session-5" "topic")
      strategyQ = .ok [] := rfl
  refine ⟨(C5_strategy_bounds envC5 (initializeResearch "session-5" "topic")
      strategyQ [] h).1 ["q"] rfl, h,
    (C5_strategy_bounds envC5 (initializeResearch "session-5" "topic")
      strategyQ [] h).2.2 ?_⟩
  intro url text hbody
  simp [envC5, baseEnv] at hbody

/-! ## C6 — the search query supplied to the relevance gate -/

/-- The body the C6 scenario returns for a URL: 150 filler characters
followed by the URL, so each body is distinct and passes the length
gate. -/
def bodyC6 (u : String) : String := c150 ++ u

/-- The state of the C6 scenario. -/
def stateC6 : ResearchState := initializeResearch "session-6" "topic"

/-- Environment for the C6 counterexample: the strategy generates two
queries; "alpha" returns three results, "beta" one; every fetch
succeeds; the relevance oracle approves exactly the judgment whose
prompt names "alpha" as the search query for the body fetched from the
third "alpha" result. -/
def envC6 : Env :=
  { baseEnv with
    llmSpecializedQueries := fun _ => .ok ["alpha", "beta"]
    searchGoogle := fun q _ _ =>
      if q = "alpha" then
        .ok [mkResult "https://a1.example/", mkResult "https://a2.example/",
          mkResult "https://a3.example/"]
      else .ok [mkResult "https://b1.example/"]
    fetch := fun u => .body (bodyC6 u)
    llmRelevance := fun prompt =>
      .ok { relevant := prompt == buildContentRelevancePrompt stateC6 strategyQ.question
              "alpha" (bodyC6 "https://a3.example/")
            reason := none }
    llmExtract := fun _ => .ok "insight" }

set_option maxRecDepth 8000 in
/-- C6 as stated is false: the flattened top-results list holds the
three "alpha" results and then the "beta" result, so the body at index
2 was produced by the query "alpha"; but the proportional-index
heuristic supplies "beta" as the `searchQuery` of its judgment.
Observably: the relevance oracle approves exactly the judgment naming
"alpha" for that body — which the code never asks — so the strategy
contributes no finding at all. -/
theorem C6_search_query_counterexample :
    envC6.searchGoogle "alpha" 6 1
      = .ok [mkResult "https://a1.example/", mkResult "https://a2.example/",
          mkResult "https://a3.example/"]
    ∧ strategyTopResults envC6 ["alpha", "beta"]
      = [mkResult "https://a1.example/", mkResult "https://a2.example/",
          mkResult "https://a3.example/", mkResult "https://b1.example/"]
    ∧ relevanceQueryAt ["alpha", "beta"] 4 2 = "beta"
    ∧ ("beta" : String) ≠ "alpha"
    ∧ envC6.llmRelevance (buildContentRelevancePrompt stateC6 strategyQ.question "alpha"
        (bodyC6 "https://a3.example/")) = .ok { relevant := true, reason := none }
    ∧ executeInvestigationStrategy envC6 stateC6 strategyQ = .ok [] :=
  ⟨rfl, rfl, rfl, by decide, rfl, rfl⟩

/-- The search query is always one of the generated queries, or empty
when the indexed slots are JS-falsy. -/
theorem relevanceQueryAt_mem (queries : List String) (numContents index : Nat) :
    relevanceQueryAt queries numContents index ∈ queries
      ∨ relevanceQueryAt queries numContents index = "" := by
  unfold relevanceQueryAt jsOrString
  dsimp only
  cases h1 : queries.get? (index * queries.length / numContents) with
  | none =>
      dsimp only
      cases h0 : queries.get? 0 with
      | none => exact Or.inr rfl
      | some t =>
          dsimp only
          by_cases ht : t = ""
          · rw [if_pos ht]
            exact Or.inr rfl
          · rw [if_neg ht]
            exact Or.inl (List.get?_mem h0)
  | some s =>
      dsimp only
      by_cases hs : s = ""
      · rw [if_pos hs]
        cases h0 : queries.get? 0 with
        | none => exact Or.inr rfl
        | some t =>
            dsimp only
            by_cases ht : t = ""
            · rw [if_pos ht]
              exact Or.inr rfl
            · rw [if_neg ht]
              exact Or.inl (List.get?_mem h0)
      · rw [if_neg hs]
        exact Or.inl (List.get?_mem h1)

/-- C6 amended: every relevance judgment is made against a prompt that
embeds the triple — the original query, the strategy's research
question, and a search query — but the search query supplied is the
proportional-index approximation `relevanceQueryAt`, which is always one
of the generated queries (or empty), not necessarily the query whose
search response contained the body's URL. -/
theorem C6_search_query_amended (state : ResearchState)
    (question content : String) (queries : List String) (numContents index : Nat) :
    (relevanceQueryAt queries numContents index ∈ queries
      ∨ relevanceQueryAt queries numContents index = "")
    ∧ (∃ a b c d e, buildContentRelevancePrompt state question
          (relevanceQueryAt queries numContents index) content
        = a ++ state.query ++ b ++ question ++ c
            ++ relevanceQueryAt queries numContents index ++ d ++ content ++ e) :=
  ⟨relevanceQueryAt_mem queries numContents index,
    ⟨"Determine if this content is strictly relevant to provide an answer to the research inquiry.\n\n<original_query>\n",
      "\n</original_query>\n\n<research_question>\n",
      "\n</research_question>\n\n<search_query>\n",
      "\n</search_query>\n\n<content>\n",
      "\n</content>\n\nReturn true only if the content contains information that could help answer the research question or original query. Be strict - marketing content, irrelevant articles, artictles about a different but similar topic, or tangential information should be marked as false.",
      rfl⟩⟩

/-! ## C4 — URL-to-finding correlation -/

/-- Sixty solid characters followed by ninety spaces: raw length 150 (so it
passes the fetch-stage filter) but trimmed length 60 (so only the
extraction-stage filter drops it). -/
def cPad : String := String.mk (List.replicate 60 'c' ++ List.replicate 90 ' ')

/-- The state of the C4 counterexample. -/
def stateC4 : ResearchState := initializeResearch "session-4" "topic"

/-- Environment for the C4 counterexample: one query, two results; the
first URL's body is whitespace-padded, the second solid; relevance
approves everything; extraction echoes its prompt, so the produced
finding reveals which body it came from. -/
def envC4 : Env :=
  { baseEnv with
    llmSpecializedQueries := fun _ => .ok ["q"]
    searchGoogle := fun _ _ _ =>
      .ok [mkResult "https://one.example/", mkResult "https://two.example/"]
    fetch := fun u => if u = "https://one.example/" then .body cPad else .body c150
    llmRelevance := fun _ => .ok { relevant := true, reason := none }
    llmExtract := fun prompt => .ok prompt }

/-- The single finding the C4 counterexample run produces. -/
def findingC4 : Finding :=
  { id := "uuid-0"
    content := buildContentExtractionPrompt c150
    source := "https://one.example/"
    timestamp := 0 }

set_option maxRecDepth 8000 in
/-- C4 as stated is false: the extraction stage re-filters the contents
but indexes the unfiltered `urls` with positions in the filtered list,
so once the padded body from `one.example` is dropped there, the
finding extracted from the body of `two.example` is attributed to
`one.example` — whose own body was the padded one. -/
theorem C4_source_counterexample :
    executeInvestigationStrategy envC4 stateC4 strategyQ = .ok [findingC4]
    ∧ findingC4.source = "https://one.example/"
    ∧ executeWebFetch envC4.fetch "https://two.example/" 10000 0 = .ok (.success c150)
    ∧ envC4.llmExtract (buildContentExtractionPrompt c150) = .ok findingC4.content
    ∧ executeWebFetch envC4.fetch "https://one.example/" 10000 0 = .ok (.success cPad)
    ∧ cPad ≠ c150
    ∧ ("https://one.example/" : String) ≠ "https://two.example/" :=
  ⟨rfl, rfl, rfl, rfl, rfl, by decide, by decide⟩

/-- Every item surviving the fetch-stage filter records exactly the
successful fetch of its own URL, positionally. -/
theorem mem_fetchedItems_fetch (env : Env) (topResults : List SearchResult)
    (rs : List (ToolResponse String))
    (hmapM : topResults.mapM (fun it => executeWebFetch env.fetch it.url 10000 0) = .ok rs) :
    ∀ item ∈ fetchedItems topResults rs,
      executeWebFetch env.fetch item.url 10000 0 = .ok (.success item.content)
      ∧ 100 < item.content.length := by
  intro item hitem
  unfold fetchedItems at hitem
  have hpred := List.of_mem_filter hitem
  have hmem := List.mem_of_mem_filter hitem
  obtain ⟨p, hp, hpeq⟩ := List.mem_map.mp hmem
  have hget : rs[p.1]? = some p.2 := List.mem_enum_iff_getElem?.mp hp
  obtain ⟨hlt, hgeteq⟩ := List.getElem?_eq_some.mp hget
  have h2 := mapM_ok_forall2 _ _ _ hmapM
  rw [List.forall₂_iff_get] at h2
  obtain ⟨hlen, hget2⟩ := h2
  have hlt2 : p.1 < topResults.length := by omega
  have hcall := hget2 p.1 hlt2 hlt
  subst hpeq
  simp only [Bool.and_eq_true, decide_eq_true_eq, bne_iff_ne] at hpred
  obtain ⟨⟨hsucc, hlen100⟩, -⟩ := hpred
  cases hp2 : p.2 with
  | failure e =>
      rw [hp2] at hsucc
      simp [ToolResponse.isSuccess] at hsucc
  | success d =>
      have hurl : ((topResults.get? p.1).map (fun item => item.url)).getD ""
          = (topResults.get ⟨p.1, hlt2⟩).url := by
        rw [List.get?_eq_getElem?, List.getElem?_eq_getElem hlt2]
        rfl
      have hresp : rs.get ⟨p.1, hlt⟩ = ToolResponse.success d := by
        rw [← hp2]
        simpa using hgeteq
      rw [hresp] at hcall
      constructor
      · dsimp only [ToolResponse.dataD]
        rw [hurl]
        exact hcall
      · dsimp only [ToolResponse.dataD]
        rw [hp2] at hlen100
        exact hlen100

/-- Every item surviving the relevance filter is a (content, url) pair
of some fetch-stage item. -/
theorem mem_relevantItemsOf_pair (cwu : List ContentWithUrl) (rel : List RelevanceResult) :
    ∀ item ∈ relevantItemsOf (cwu.map (fun it => it.content))
        (cwu.map (fun it => it.url)) rel,
      ∃ w ∈ cwu, item.content = w.content ∧ item.url = some w.url := by
  intro item hitem
  unfold relevantItemsOf at hitem
  have hmem := List.mem_of_mem_filter hitem
  obtain ⟨p, hp, hpeq⟩ := List.mem_map.mp hmem
  have hgetc : (cwu.map (fun it => it.content))[p.1]? = some p.2 :=
    List.mem_enum_iff_getElem?.mp hp
  rw [List.getElem?_map] at hgetc
  cases hw : cwu[p.1]? with
  | none => rw [hw] at hgetc; simp at hgetc
  | some w =>
      rw [hw] at hgetc
      have hc : w.content = p.2 := Option.some.inj hgetc
      refine ⟨w, List.getElem?_mem hw, ?_, ?_⟩
      · rw [← hpeq]
        exact hc.symm
      · rw [← hpeq]
        show (cwu.map (fun it => it.url)).get? p.1 = some w.url
        rw [List.get?_eq_getElem?, List.getElem?_map, hw]
        rfl

/-- Each finding of the extraction stage, when the extraction-stage
filter drops nothing, pairs the extraction of `contents[i]` with
`urls[i]` at the same index. -/
theorem extractInsights_mem (env : Env) (cs us : List String) (q : String)
    (hvalid : ∀ c ∈ cs, (¬ jsStartsWith c "Error fetching" = true) ∧ 100 ≤ (jsTrim c).length) :
    ∀ f ∈ extractInsightsFromContent env cs us q,
      ∃ i, ∃ hi : i < cs.length,
        env.llmExtract (buildContentExtractionPrompt (cs.get ⟨i, hi⟩)) = .ok f.content
        ∧ f.source = (us.get? i).getD "" := by
  intro f hf
  unfold extractInsightsFromContent at hf
  have hfilter : cs.filter (fun content =>
      !(jsStartsWith content "Error fetching") && (jsTrim content).length ≥ 100) = cs := by
    rw [List.filter_eq_self]
    intro c hc
    obtain ⟨h1, h2⟩ := hvalid c hc
    simp [h1, h2]
  rw [hfilter] at hf
  obtain ⟨x, hx, hxf⟩ := List.mem_filterMap.mp hf
  obtain ⟨p, hp, hpeq⟩ := List.mem_map.mp hx
  have hget : cs[p.1]? = some p.2 := List.mem_enum_iff_getElem?.mp hp
  obtain ⟨hlt, hgeteq⟩ := List.getElem?_eq_some.mp hget
  refine ⟨p.1, hlt, ?_⟩
  rw [← hpeq] at hxf
  revert hxf
  cases hex : env.llmExtract (buildContentExtractionPrompt p.2) with
  | error e => intro hxf; simp at hxf
  | ok text =>
      intro hxf
      dsimp only [id] at hxf
      by_cases ht : (jsTrim text).length > 0
      · rw [if_pos ht] at hxf
        simp only [Option.some.injEq] at hxf
        subst hxf
        constructor
        · show env.llmExtract (buildContentExtractionPrompt (cs.get ⟨p.1, hlt⟩)) = .ok text
          have : cs.get ⟨p.1, hlt⟩ = p.2 := by simpa using hgeteq
          rw [this]
          exact hex
        · rfl
      · rw [if_neg ht] at hxf
        simp at hxf

set_option maxHeartbeats 2000000 in
/-- C4 amended: a finding's `source` is `urls[i]` where `i` is the
finding's index within the extraction stage's re-filtered content list;
whenever that filter drops nothing — in particular when every body that
passed the fetch-stage filter also has trimmed length at least 100 and
no "Error fetching" prefix — every finding's `source` is exactly the
URL whose fetched body the finding's content was extracted from. -/
theorem C4_source_correlation (env : Env) (state : ResearchState)
    (strategy : InvestigationStrategy) (findings : List Finding)
    (h : executeInvestigationStrategy env state strategy = .ok findings)
    (hclean : ∀ url content,
      executeWebFetch env.fetch url 10000 0 = .ok (.success content) →
      100 < content.length →
      (¬ jsStartsWith content "Error fetching" = true) ∧ 100 ≤ (jsTrim content).length) :
    ∀ f ∈ findings, ∃ content,
      executeWebFetch env.fetch f.source 10000 0 = .ok (.success content)
      ∧ 100 < content.length
      ∧ env.llmExtract (buildContentExtractionPrompt content) = .ok f.content := by
  obtain ⟨queries, contentResponses, relevanceResults, hq, hf, hr, hfind⟩ :=
    executeInvestigationStrategy_ok env state strategy findings h
  intro f hfmem
  rw [hfind] at hfmem
  set cwu := fetchedItems (strategyTopResults env queries) contentResponses with hcwu
  have hCU : relevantItemsOf (strategyContents env queries contentResponses)
      (strategyUrls env queries contentResponses) relevanceResults
      = relevantItemsOf (cwu.map (fun it => it.content)) (cwu.map (fun it => it.url))
          relevanceResults := rfl
  set ri := relevantItemsOf (cwu.map (fun it => it.content))
    (cwu.map (fun it => it.url)) relevanceResults with hri
  rw [hCU] at hfmem
  have hfetchpair := mem_fetchedItems_fetch env (strategyTopResults env queries)
    contentResponses hf
  have hvalid : ∀ c ∈ ri.map (fun item => item.content),
      (¬ jsStartsWith c "Error fetching" = true) ∧ 100 ≤ (jsTrim c).length := by
    intro c hc
    obtain ⟨item, hitem, hceq⟩ := List.mem_map.mp hc
    obtain ⟨w, hw, hcw, -⟩ := mem_relevantItemsOf_pair cwu relevanceResults item hitem
    obtain ⟨hfetchw, hlenw⟩ := hfetchpair w hw
    subst hceq
    rw [hcw]
    exact hclean w.url w.content hfetchw hlenw
  obtain ⟨i, hi, hex, hsrc⟩ := extractInsights_mem env
    (ri.map (fun item => item.content)) (ri.map (fun item => item.url.getD ""))
    strategy.question hvalid f hfmem
  have hilt : i < ri.length := by simpa using hi
  have hcontent : (ri.map (fun item => item.content)).get ⟨i, hi⟩
      = (ri.get ⟨i, hilt⟩).content := by
    simp
  have hurlget : ((ri.map (fun item => item.url.getD "")).get? i).getD ""
      = (ri.get ⟨i, hilt⟩).url.getD "" := by
    rw [List.get?_eq_getElem?, List.getElem?_map, List.getElem?_eq_getElem hilt]
    rfl
  obtain ⟨w, hw, hcw, huw⟩ := mem_relevantItemsOf_pair cwu relevanceResults
    (ri.get ⟨i, hilt⟩) (List.get_mem ri i hilt)
  obtain ⟨hfetchw, hlenw⟩ := hfetchpair w hw
  refine ⟨w.content, ?_, hlenw, ?_⟩
  · have hsource : f.source = w.url := by
      rw [hsrc, hurlget, huw]
      rfl
    rw [hsource]
    exact hfetchw
  · rw [hcontent, hcw] at hex
    exact hex

/-- Environment for the C4 witness: one query, one result, one solid
150-character body; extraction echoes its prompt. -/
def envC4w : Env :=
  { baseEnv with
    llmSpecializedQueries := fun _ => .ok ["q"]
    searchGoogle := fun _ _ _ => .ok [mkResult "https://w4.example/"]
    fetch := fun _ => .body c150
    llmRelevance := fun _ => .ok { relevant := true, reason := none }
    llmExtract := fun prompt => .ok prompt }

/-- The finding the C4 witness run produces. -/
def findingC4w : Finding :=
  { id := "uuid-0"
    content := buildContentExtractionPrompt c150
    source := "https://w4.example/"
    timestamp := 0 }

set_option maxRecDepth 8000 in
theorem C4_source_correlation_witness :
    executeWebFetch envC4w.fetch findingC4w.source 10000 0 = .ok (.success c150)
    ∧ envC4w.llmExtract (buildContentExtractionPrompt c150) = .ok findingC4w.content := by
  have hclean : ∀ url content,
      executeWebFetch envC4w.fetch url 10000 0 = .ok (.success content) →
      100 < content.length →
      (¬ jsStartsWith content "Error fetching" = true) ∧ 100 ≤ (jsTrim content).length := by
    intro url content hfetch _
    have hc : content = c150 := by
      have heval : executeWebFetch envC4w.fetch url 10000 0 = .ok (.success c150) := rfl
      rw [heval] at hfetch
      simp only [Except.ok.injEq, ToolResponse.success.injEq] at hfetch
      exact hfetch.symm
    subst hc
    exact ⟨by decide, by decide⟩
  obtain ⟨content, h1, h2, h3⟩ :=
    C4_source_correlation envC4w stateC4 strategyQ [findingC4w] rfl hclean
      findingC4w (List.mem_singleton.mpr rfl)
  have hc : content = c150 := by
    have heval : executeWebFetch envC4w.fetch findingC4w.source 10000 0
        = .ok (.success c150) := rfl
    have h1c := h1
    rw [heval] at h1c
    simp only [Except.ok.injEq, ToolResponse.success.injEq] at h1c
    exact h1c.symm
  subst hc
  exact ⟨h1, h3⟩

/-! ## C10 — webContents is never written, sourcesConsulted is 0 -/

theorem executeInitialSearch_webContents (env : Env) (s : ResearchState) :
    ((executeInitialSearch env s).1).webContents = s.webContents := by
  unfold executeInitialSearch
  cases env.llmInitialQueries s.query <;> rfl

theorem executeStrategicPlanning_webContents (env : Env) (s : ResearchState) :
    ((executeStrategicPlanning env s).1).webContents = s.webContents := by
  unfold executeStrategicPlanning
  cases identifyResearchGaps env s with
  | error e => rfl
  | ok gaps =>
      dsimp only
      cases env.llmResearchPlan s.query (joinFindings s.findings)
        (String.intercalate "\n" gaps) <;> rfl

theorem executeFanOutInvestigation_webContents (env : Env) (s : ResearchState)
    (plan : ResearchPlan) :
    ((executeFanOutInvestigation env s plan).1).webContents = s.webContents := by
  unfold executeFanOutInvestigation
  cases plan.investigationStrategies.mapM
    (fun strategy => executeInvestigationStrategy env s strategy) <;> rfl

theorem executeSynthesis_webContents (env : Env) (s : ResearchState) :
    ((executeSynthesis env s).1).webContents = s.webContents := by
  unfold executeSynthesis
  cases env.llmSynthesis s.query
    (String.intercalate "\n</finding>\n<finding>\n" (s.findings.map (fun f => f.content)))
    ((s.researchPlan.map (fun p => p.synthesisStrategy)).getD "") <;> rfl

/-- No phase of the concrete pipeline ever touches `webContents`. -/
theorem runPipeline_impl_webContents (env : Env) (s0 : ResearchState) :
    (runPipeline (phasesImpl env) s0).1.webContents = s0.webContents := by
  unfold runPipeline phasesImpl
  dsimp only
  rcases h1 : executeInitialSearch env s0 with ⟨s1, r1⟩
  have hw1 : s1.webContents = s0.webContents := by
    have h := executeInitialSearch_webContents env s0
    rw [h1] at h
    exact h
  cases r1 with
  | error e => exact hw1
  | ok ir =>
      dsimp only
      rcases h2 : executeStrategicPlanning env s1 with ⟨s2, r2⟩
      have hw2 : s2.webContents = s1.webContents := by
        have h := executeStrategicPlanning_webContents env s1
        rw [h2] at h
        exact h
      cases r2 with
      | error e => exact hw2.trans hw1
      | ok plan =>
          dsimp only
          rcases h3 : executeFanOutInvestigation env s2 plan with ⟨s3, r3⟩
          have hw3 : s3.webContents = s2.webContents := by
            have h := executeFanOutInvestigation_webContents env s2 plan
            rw [h3] at h
            exact h
          cases r3 with
          | error e => exact hw3.trans (hw2.trans hw1)
          | ok fs =>
              dsimp only
              exact (executeSynthesis_webContents env s3).trans
                (hw3.trans (hw2.trans hw1))

/-- C10: with the concrete phase executors no one ever appends to
`state.webContents` (the fan-out phase imports `addWebContents` but
never calls it), so `webContents` is empty at the end of every run and
`metadata.sourcesConsulted` is `0` in the synthesis report and in the
degraded report alike. -/
theorem C10_webContents_empty (env : Env) (sessionId query : String) :
    (runPipeline (phasesImpl env) (initializeResearch sessionId query)).1.webContents = []
    ∧ (performDeepResearch (phasesImpl env) sessionId query).metadata.sourcesConsulted = 0 := by
  have hrunw : (runPipeline (phasesImpl env) (initializeResearch sessionId query)).1.webContents
      = [] := by
    rw [runPipeline_impl_webContents]
    rfl
  refine ⟨hrunw, ?_⟩
  rcases hrun : runPipeline (phasesImpl env) (initializeResearch sessionId query) with ⟨s, res⟩
  rw [hrun] at hrunw
  cases res with
  | error e =>
      rw [performDeepResearch_error (phasesImpl env) sessionId query s e hrun]
      show s.webContents.length = 0
      simp only at hrunw
      rw [hrunw]
      rfl
  | ok r =>
      rw [performDeepResearch_ok (phasesImpl env) sessionId query s r hrun]
      obtain ⟨s3, synthesis, hr, -, hw⟩ := runPipeline_impl_ok env _ s r hrun
      subst hr
      show s3.webContents.length = 0
      simp only at hrunw
      rw [← hw, hrunw]
      rfl

end ResearchAgent
